import Mathlib

/-!
Shallow embedding, in Lean 4, of the pull-event telemetry pipeline of the
quay container registry: the periodic worker base with its retry/backoff
wrapper (`workers/worker.py`), and the pull-metrics recorder together with
the Redis flush worker's classification logic.  Machine integers of the
source are modelled as `Nat` (Python integers are unbounded), Redis hashes
as records of optional string fields, and exception flow as explicit
result values.
-/

namespace Quay

/-! ## Periodic worker base (`workers/worker.py`, class `Worker`) -/

/-- State of a `Worker` instance: the two `threading.Event` flags
`self._stop` and `self._terminated` set up in `Worker.__init__`. -/
structure WorkerState where
  stop : Bool
  terminated : Bool
deriving DecidableEq, Repr

/-- State of a freshly constructed worker: both events unset. -/
def initialWorkerState : WorkerState := ⟨false, false⟩

/-- Configuration bits consulted by `Worker.start`: the `SETUP_COMPLETE`
flag and whether `REGISTRY_STATE` equals `"readonly"`. -/
structure WorkerConfig where
  setup_complete : Bool
  registry_readonly : Bool
deriving DecidableEq, Repr

/-- Result of a call to `Worker.terminate`: either the process exits via
`sys.exit(code)`, or the call returns normally. -/
inductive TerminateResult where
  | exited (code : Nat)
  | returned
deriving DecidableEq, Repr

/-- Embedding of `Worker.is_healthy`: `not self._stop.is_set()`. -/
def Worker.is_healthy (s : WorkerState) : Bool := !s.stop

/-- Embedding of `Worker.is_terminated`: `self._terminated.is_set()`. -/
def Worker.is_terminated (s : WorkerState) : Bool := s.terminated

/-- Embedding of `Worker.terminate(signal_num, stack_frame, graceful)`.
Returns the new state, the call outcome, and whether the overridable
`ungracefully_terminated` hook was invoked during this call.  The source:
if `self._terminated.is_set()` then `sys.exit(1)`; else set `self._stop`
and, when not graceful, invoke `self.ungracefully_terminated()`. -/
def Worker.terminate (s : WorkerState) (graceful : Bool) :
    WorkerState × TerminateResult × Bool :=
  if s.terminated then (s, .exited 1, false)
  else ({ s with stop := true }, .returned, !graceful)

/-- Embedding of `Worker.join`: `self.terminate(graceful=True)`. -/
def Worker.join (s : WorkerState) : WorkerState × TerminateResult × Bool :=
  Worker.terminate s true

/-- Embedding of `Worker.start`, abstracting the blocking waits: the value
is the worker state at the moment `start` returns.  When `SETUP_COMPLETE`
is unset, or the registry is read-only, `start` waits for the stop flag in
`_setup_and_wait_for_shutdown` and then returns without touching
`self._terminated`; on the normal path it additionally runs the scheduler,
waits, shuts the scheduler down and sets `self._terminated`.  In every
branch the wait loop `while not self._stop.wait(1)` exits only once the
stop flag is set, so callers instantiate `s` with `s.stop = true`. -/
def Worker.start (cfg : WorkerConfig) (s : WorkerState) : WorkerState :=
  if !cfg.setup_complete then s
  else if cfg.registry_readonly then s
  else { s with terminated := true }

/-- Repeated non-graceful termination: perform `n` successive calls to
`Worker.terminate(graceful=False)` and count how many of them invoked the
`ungracefully_terminated` hook. -/
def terminateCalls (s : WorkerState) : Nat → WorkerState × Nat
  | 0 => (s, 0)
  | n + 1 =>
    let r := Worker.terminate s false
    let rest := terminateCalls r.1 n
    (rest.1, (if r.2.2 then 1 else 0) + rest.2)

/-- A public state-changing operation of the `Worker` class. -/
inductive WorkerOp where
  | startOp (cfg : WorkerConfig)
  | terminateOp (graceful : Bool)
  | joinOp
deriving DecidableEq, Repr

/-- Apply one public operation to the worker state (ignoring the call
outcome of `terminate`). -/
def applyWorkerOp (s : WorkerState) : WorkerOp → WorkerState
  | .startOp cfg => Worker.start cfg s
  | .terminateOp g => (Worker.terminate s g).1
  | .joinOp => (Worker.join s).1

/-! ## Retry with exponential backoff (`with_exponential_backoff`) -/

/-- Embedding of the loop inside `with_exponential_backoff(
backoff_multiplier, max_backoff, max_retries)`.  The wrapped operation is
modelled as `func : Nat → Except ε α`, mapping the 1-based attempt number
to its outcome.  The result carries the list of back-off delays slept, in
order; `fuel` bounds the number of loop iterations so that the unbounded
`max_retries = none` configuration stays total — `none` is returned only
when the fuel runs out, mirroring a loop still running. -/
def with_exponential_backoff_run {α ε : Type}
    (backoff_multiplier max_backoff : Nat) (max_retries : Option Nat)
    (func : Nat → Except ε α) :
    Nat → Nat → List Nat → Option (Except ε α × List Nat)
  | 0, _, _ => none
  | fuel + 1, attempts, sleeps =>
    let backoff := min (2 ^ attempts * backoff_multiplier) max_backoff
    match func (attempts + 1) with
    | .ok v => some (.ok v, sleeps)
    | .error e =>
      if max_retries = some (attempts + 1) then some (.error e, sleeps)
      else
        with_exponential_backoff_run backoff_multiplier max_backoff
          max_retries func fuel (attempts + 1) (sleeps ++ [backoff])

/-- Delay computed by the loop body before the attempt with 0-indexed
failure count `k`: `min(2 ** attempts * backoff_multiplier, max_backoff)`. -/
def backoffDelay (backoff_multiplier max_backoff k : Nat) : Nat :=
  min (2 ^ k * backoff_multiplier) max_backoff

/-- Boolean success test on a result of the wrapped operation. -/
def exceptIsOk {α ε : Type} : Except ε α → Bool
  | .ok _ => true
  | .error _ => false

/-- Operation failing on attempts 1 and 2 and succeeding (with value 42)
from attempt 3 on, as in the retry test scenario. -/
def failTwiceThenSucceed : Nat → Except String Nat := fun n =>
  if 3 ≤ n then .ok 42 else .error "fail"

/-- Operation that fails on every attempt. -/
def alwaysFailing : Nat → Except String Nat := fun _ => .error "boom"

/-! ## Pull-metrics recorder (`util/pullmetrics.py`)

The module `util/pullmetrics.py` itself is not part of the sources at
hand; only its test suite is.  The definitions below are therefore
modelled from the spec. -/

/-- Recursion core for the decimal rendering, structural on a fuel
argument so that it reduces inside the kernel; `fuel = n + 1` always
suffices because `n / 10 < n` for `n ≥ 10`. -/
def natToDigitsAux : Nat → Nat → List Char
  | 0, _ => []
  | fuel + 1, n =>
    if n < 10 then [Char.ofNat (48 + n)]
    else natToDigitsAux fuel (n / 10) ++ [Char.ofNat (48 + n % 10)]

/-- Modelled from the spec: `util/pullmetrics.py` is missing; decimal
digits of a Python integer as rendered by `str(int)`, used inside the
f-string that builds the Redis keys. -/
def natToDigits (n : Nat) : List Char := natToDigitsAux (n + 1) n

/-- Modelled from the spec: Python `str` applied to a non-negative
integer. -/
def natToString (n : Nat) : String := ⟨natToDigits n⟩

/-- Modelled from the spec: `util/pullmetrics.py` is missing; key built by
`PullMetrics._tag_pull_key(repository_id, tag_name, manifest_digest)`,
the wire-visible format
`pull_events:repo:{repository_id}:tag:{tag_name}:{manifest_digest}`. -/
def tag_pull_key (repository_id : Nat) (tag_name manifest_digest : String) : String :=
  "pull_events:repo:" ++ natToString repository_id ++ ":tag:" ++ tag_name
    ++ ":" ++ manifest_digest

/-- Modelled from the spec: `util/pullmetrics.py` is missing; key built by
`PullMetrics._manifest_pull_key(repository_id, manifest_digest)`, the
wire-visible format
`pull_events:repo:{repository_id}:digest:{manifest_digest}`. -/
def manifest_pull_key (repository_id : Nat) (manifest_digest : String) : String :=
  "pull_events:repo:" ++ natToString repository_id ++ ":digest:" ++ manifest_digest

/-- Outcome of a call into the recorder, making Python exception flow
explicit: the call either returns normally (recording whether a store
error was caught and logged on the way) or lets an exception escape. -/
inductive CallOutcome where
  | returns (loggedError : Bool)
  | raises (e : String)
deriving DecidableEq, Repr

/-- Boolean test for an escaped exception. -/
def outcomeRaises : CallOutcome → Bool
  | .returns _ => false
  | .raises _ => true

/-- Modelled from the spec: `util/pullmetrics.py` is missing;
`PullMetrics.track_tag_pull_sync` computes the tag key, opens an atomic
pipeline against the fast store, and wraps the store interaction in a
handler that catches any store error, logs it and returns normally.  The
fast store is abstracted as `store`, mapping the key touched to the
outcome of the atomic batch. -/
def track_tag_pull_sync (repository_id : Nat) (tag_name manifest_digest : String)
    (store : String → Except String Unit) : CallOutcome :=
  match store (tag_pull_key repository_id tag_name manifest_digest) with
  | .ok _ => .returns false
  | .error _ => .returns true

/-- Modelled from the spec: `PullMetrics.track_manifest_pull_sync`,
analogous to the tag variant but on the digest key. -/
def track_manifest_pull_sync (repository_id : Nat) (manifest_digest : String)
    (store : String → Except String Unit) : CallOutcome :=
  match store (manifest_pull_key repository_id manifest_digest) with
  | .ok _ => .returns false
  | .error _ => .returns true

/-- Modelled from the spec: `PullMetrics.track_tag_pull`, the
fire-and-forget variant.  In the single-threaded/testing configuration
(`testing = true`) it executes the synchronous path; otherwise it submits
the synchronous path to the bounded worker pool and returns at once, so
the caller observes a normal return in either case. -/
def track_tag_pull (testing : Bool) (repository_id : Nat)
    (tag_name manifest_digest : String)
    (store : String → Except String Unit) : CallOutcome :=
  if testing then track_tag_pull_sync repository_id tag_name manifest_digest store
  else .returns false

/-- Modelled from the spec: `PullMetrics.track_manifest_pull`, the
fire-and-forget variant of the manifest path. -/
def track_manifest_pull (testing : Bool) (repository_id : Nat)
    (manifest_digest : String)
    (store : String → Except String Unit) : CallOutcome :=
  if testing then track_manifest_pull_sync repository_id manifest_digest store
  else .returns false

/-! ## Redis flush worker (`workers/pullstatsredisflushworker.py`)

The module `workers/pullstatsredisflushworker.py` itself is not part of
the sources at hand; only its test suite is.  The definitions below are
modelled from the spec, section "Redis Flush Worker". -/

/-- A Redis hash fetched by `hgetall` for one pull-event key: each field
is either absent or holds a string value. -/
structure RedisHash where
  repository_id : Option String
  tag_name : Option String
  manifest_digest : Option String
  pull_count : Option String
  last_pull_timestamp : Option String
  pull_method : Option String
deriving DecidableEq, Repr

/-- The empty hash, returned by `hgetall` for an absent key. -/
def RedisHash.empty : RedisHash := ⟨none, none, none, none, none, none⟩

/-- Test whether a fetched hash is empty (Python `if not data`). -/
def RedisHash.isEmptyHash (h : RedisHash) : Bool :=
  h.repository_id.isNone && h.tag_name.isNone && h.manifest_digest.isNone
    && h.pull_count.isNone && h.last_pull_timestamp.isNone && h.pull_method.isNone

/-- Value of a list of decimal digit characters. -/
def digitsVal (l : List Char) : Nat :=
  l.foldl (fun a c => a * 10 + (c.toNat - 48)) 0

/-- Modelled from the spec: Python `int(s)` on the strings stored in the
hash, succeeding exactly on non-empty all-digit strings (the integer
fields of the records are decimal renderings of non-negative values). -/
def parseDecimal (s : String) : Option Nat :=
  if s.data ≠ [] ∧ s.data.all Char.isDigit then some (digitsVal s.data) else none

/-- Hexadecimal digit test for the digest body. -/
def isHexChar (c : Char) : Bool :=
  c.isDigit || (97 ≤ c.toNat && c.toNat ≤ 102) || (65 ≤ c.toNat && c.toNat ≤ 70)

/-- Modelled from the spec: content-digest shape check used by
`RedisFlushWorker._validate_redis_key_data` — `algorithm:hexdigits` with
non-empty algorithm and hex parts, split at the first colon. -/
def isValidDigest (s : String) : Bool :=
  match s.data.dropWhile (fun c => c ≠ ':') with
  | _ :: hex =>
    !(s.data.takeWhile (fun c => c ≠ ':')).isEmpty && !hex.isEmpty
      && hex.all isHexChar
  | [] => false

/-- Modelled from the spec: `RedisFlushWorker._validate_redis_key_data`.
Validation requires `repository_id` present and a positive integer,
`manifest_digest` present and of content-digest shape, `pull_count`
present and a non-negative integer, and `last_pull_timestamp` present. -/
def validate_redis_key_data (h : RedisHash) : Bool :=
  (match h.repository_id.bind parseDecimal with
   | some rid => decide (0 < rid)
   | none => false)
  && (match h.manifest_digest with
      | some d => isValidDigest d
      | none => false)
  && (h.pull_count.bind parseDecimal).isSome
  && h.last_pull_timestamp.isSome

/-- The spec's validation requirement stated as a proposition, word for
word: `repository_id` present and a positive integer; `manifest_digest`
present and matching content-digest shape (`algorithm:hexdigits`,
non-empty algorithm and hex parts); `pull_count` present and a
non-negative integer; `last_pull_timestamp` present. -/
def ValidRecordSpec (h : RedisHash) : Prop :=
  (∃ s n, h.repository_id = some s ∧ parseDecimal s = some n ∧ 0 < n)
  ∧ (∃ d alg hex, h.manifest_digest = some d ∧ d.data = alg ++ ':' :: hex
      ∧ alg ≠ [] ∧ (∀ c ∈ alg, c ≠ ':') ∧ hex ≠ []
      ∧ ∀ c ∈ hex, isHexChar c = true)
  ∧ (∃ s n, h.pull_count = some s ∧ parseDecimal s = some n)
  ∧ ∃ t, h.last_pull_timestamp = some t

/-- One row of the per-tag update batch built by
`_process_redis_events`: `{repository_id, tag_name, manifest_digest,
pull_count, last_pull_timestamp}` with the integer fields converted. -/
structure TagUpdate where
  repository_id : Nat
  tag_name : String
  manifest_digest : String
  pull_count : Nat
  last_pull_timestamp : String
deriving DecidableEq, Repr

/-- One row of the per-manifest update batch built by
`_process_redis_events`. -/
structure ManifestUpdate where
  repository_id : Nat
  manifest_digest : String
  pull_count : Nat
  last_pull_timestamp : String
deriving DecidableEq, Repr

/-- The four collections returned by `_process_redis_events`. -/
structure ProcessResult where
  tag_updates : List TagUpdate
  manifest_updates : List ManifestUpdate
  cleanable_keys : List String
  database_dependent_keys : List String
deriving DecidableEq, Repr

/-- Result with all four collections empty. -/
def emptyProcessResult : ProcessResult := ⟨[], [], [], []⟩

/-- Modelled from the spec: the loop body of
`RedisFlushWorker._process_redis_events` for one scanned key and its
fetched hash.  An empty hash is cleanable; a hash failing validation is
cleanable; a `pull_count` of exactly zero is cleanable; a valid record
with non-empty `tag_name` contributes one tag update and one manifest
update and its key is database-dependent; a valid record with empty
`tag_name` contributes only a manifest update. -/
def processOne (key : String) (h : RedisHash) (acc : ProcessResult) : ProcessResult :=
  if h.isEmptyHash then
    { acc with cleanable_keys := acc.cleanable_keys ++ [key] }
  else if !validate_redis_key_data h then
    { acc with cleanable_keys := acc.cleanable_keys ++ [key] }
  else
    match h.repository_id.bind parseDecimal, h.manifest_digest,
        h.pull_count.bind parseDecimal, h.last_pull_timestamp with
    | some rid, some md, some pc, some ts =>
      if pc = 0 then
        { acc with cleanable_keys := acc.cleanable_keys ++ [key] }
      else if h.tag_name.getD "" ≠ "" then
        { acc with
          tag_updates := acc.tag_updates ++ [⟨rid, h.tag_name.getD "", md, pc, ts⟩],
          manifest_updates := acc.manifest_updates ++ [⟨rid, md, pc, ts⟩],
          database_dependent_keys := acc.database_dependent_keys ++ [key] }
      else
        { acc with
          manifest_updates := acc.manifest_updates ++ [⟨rid, md, pc, ts⟩],
          database_dependent_keys := acc.database_dependent_keys ++ [key] }
    | _, _, _, _ =>
      { acc with cleanable_keys := acc.cleanable_keys ++ [key] }

/-- Modelled from the spec: `RedisFlushWorker._process_redis_events`,
folding the per-key classification over the scanned keys paired with the
hash fetched for each. -/
def process_redis_events (items : List (String × RedisHash)) : ProcessResult :=
  items.foldl (fun acc kh => processOne kh.1 kh.2 acc) emptyProcessResult

/-! ## Concrete records from the test suites -/

/-- Valid tag-form record from `test_process_redis_events_with_invalid_keys`. -/
def exValidTagHash : RedisHash :=
  ⟨some "123", some "latest", some "sha256:abc123", some "5", some "1694168400", some "tag"⟩

/-- Zero-pull-count record from `test_process_redis_events_with_invalid_keys`. -/
def exZeroCountHash : RedisHash :=
  ⟨some "456", some "test", some "sha256:def456", some "0", some "1694168460", some "tag"⟩

/-- Invalid-digest record from `test_process_redis_events_with_invalid_keys`. -/
def exBadDigestHash : RedisHash :=
  ⟨some "789", some "invalid", some "invalid_digest", some "3", some "1694168520", some "tag"⟩

/-- The four scanned keys of `test_process_redis_events_with_invalid_keys`,
paired with the hash fetched for each: an empty hash, a valid tag-form
record, a zero-pull-count record, and an invalid-digest record. -/
def exScanItems : List (String × RedisHash) :=
  [("pull_events:repo:123:empty", RedisHash.empty),
   ("pull_events:repo:123:tag:latest:sha256:abc123", exValidTagHash),
   ("pull_events:repo:456:tag:test:sha256:def456", exZeroCountHash),
   ("pull_events:repo:789:tag:invalid:invalid_digest", exBadDigestHash)]

/-- Valid minimal record from `test_validate_redis_key_data`. -/
def exValidData : RedisHash :=
  ⟨some "123", none, some "sha256:abc123", some "5", some "1694168400", none⟩

/-- Record with a missing `manifest_digest`, from `test_validate_redis_key_data`. -/
def exMissingDigestData : RedisHash :=
  ⟨some "123", none, none, some "5", some "1694168400", none⟩

/-- Record with `repository_id` equal to `"0"`, from `test_validate_redis_key_data`. -/
def exZeroRepoData : RedisHash :=
  ⟨some "0", none, some "sha256:abc123", some "5", some "1694168400", none⟩

/-- Record with `manifest_digest` equal to `"invalid_digest"`, from
`test_validate_redis_key_data`. -/
def exInvalidDigestData : RedisHash :=
  ⟨some "123", none, some "invalid_digest", some "5", some "1694168400", none⟩

/-! ## Backoff lemmas -/

/-- Sleeps accumulated by the backoff loop: starting from the state after
`attempts` failed attempts, any run that returns produces exactly the
delays `backoffDelay` over an initial segment of the naturals. -/
lemma backoff_run_sleeps {α ε : Type} (bm mb : Nat) (mr : Option Nat)
    (func : Nat → Except ε α) :
    ∀ (fuel attempts : Nat) (r : Except ε α) (L : List Nat),
      with_exponential_backoff_run bm mb mr func fuel attempts
          ((List.range attempts).map (backoffDelay bm mb)) = some (r, L) →
      ∃ m, L = (List.range m).map (backoffDelay bm mb) := by
  intro fuel
  induction fuel with
  | zero =>
    intro attempts r L h
    simp [with_exponential_backoff_run] at h
  | succ fuel ih =>
    intro attempts r L h
    rw [with_exponential_backoff_run] at h
    cases hf : func (attempts + 1) with
    | ok v =>
      simp only [hf, Option.some.injEq, Prod.mk.injEq] at h
      exact ⟨attempts, h.2.symm⟩
    | error e =>
      simp only [hf] at h
      by_cases hmr : mr = some (attempts + 1)
      · rw [hmr, if_pos rfl] at h
        simp only [Option.some.injEq, Prod.mk.injEq] at h
        exact ⟨attempts, h.2.symm⟩
      · rw [if_neg hmr] at h
        have hstep : (List.range attempts).map (backoffDelay bm mb)
            ++ [min (2 ^ attempts * bm) mb]
            = (List.range (attempts + 1)).map (backoffDelay bm mb) := by
          rw [List.range_succ, List.map_append]
          rfl
        rw [hstep] at h
        exact ih (attempts + 1) r L h

/-- With an unbounded retry setting (`max_retries = None`), the loop never
returns an error result: the only exit carrying a value is a success. -/
lemma backoff_run_none_ok {α ε : Type} (bm mb : Nat) (func : Nat → Except ε α) :
    ∀ (fuel attempts : Nat) (sleeps : List Nat) (r : Except ε α) (L : List Nat),
      with_exponential_backoff_run bm mb none func fuel attempts sleeps = some (r, L) →
      exceptIsOk r = true := by
  intro fuel
  induction fuel with
  | zero =>
    intro attempts sleeps r L h
    simp [with_exponential_backoff_run] at h
  | succ fuel ih =>
    intro attempts sleeps r L h
    rw [with_exponential_backoff_run] at h
    cases hf : func (attempts + 1) with
    | ok v =>
      simp only [hf, Option.some.injEq, Prod.mk.injEq] at h
      rw [← h.1]
      rfl
    | error e =>
      simp only [hf] at h
      rw [if_neg (by simp)] at h
      exact ih (attempts + 1) (sleeps ++ [min (2 ^ attempts * bm) mb]) r L h

/-- C4: for every operation wrapped by `with_exponential_backoff`, the
delay slept before retry `k` (0-indexed failed attempt count) equals
`min(2^k * backoff_multiplier, max_backoff)`; an operation failing on
attempts 1 and 2 and succeeding on attempt 3 with `max_retries = 10` and
`backoff_multiplier = 10` returns the success value after sleeping exactly
twice, 10 then 20 seconds; an always-failing operation with
`max_retries = 3` raises the original exception on the third attempt with
no further sleep; and with `max_retries = None` the exception never
propagates. -/
theorem with_exponential_backoff_spec :
    (∀ (α ε : Type) (bm mb : Nat) (mr : Option Nat) (func : Nat → Except ε α)
        (fuel : Nat) (r : Except ε α) (L : List Nat),
        with_exponential_backoff_run bm mb mr func fuel 0 [] = some (r, L) →
        ∀ k, (hk : k < L.length) → L.get ⟨k, hk⟩ = backoffDelay bm mb k)
    ∧ with_exponential_backoff_run 10 3600 (some 10) failTwiceThenSucceed 20 0 []
        = some (.ok 42, [10, 20])
    ∧ with_exponential_backoff_run 10 3600 (some 3) alwaysFailing 20 0 []
        = some (.error "boom", [10, 20])
    ∧ ∀ (α ε : Type) (bm mb : Nat) (func : Nat → Except ε α)
        (fuel attempts : Nat) (sleeps : List Nat) (r : Except ε α) (L : List Nat),
        with_exponential_backoff_run bm mb none func fuel attempts sleeps = some (r, L) →
        exceptIsOk r = true := by
  refine ⟨?_, rfl, rfl, ?_⟩
  · intro α ε bm mb mr func fuel r L h k hk
    have h0 : (List.range 0).map (backoffDelay bm mb) = ([] : List Nat) := rfl
    rw [← h0] at h
    obtain ⟨m, hm⟩ := backoff_run_sleeps bm mb mr func fuel 0 r L h
    subst hm
    simp [backoffDelay]
  · intro α ε bm mb func fuel attempts sleeps r L h
    exact backoff_run_none_ok bm mb func fuel attempts sleeps r L h

/-- Witness for C4: the general delay law applied to the concrete
always-failing run, and the unbounded-retry law applied to the concrete
succeed-on-third-attempt run. -/
theorem with_exponential_backoff_spec_witness :
    ([10, 20] : List Nat).get ⟨0, by decide⟩ = backoffDelay 10 3600 0
    ∧ exceptIsOk (Except.ok 42 : Except String Nat) = true := by
  constructor
  · exact with_exponential_backoff_spec.1 Nat String 10 3600 (some 3) alwaysFailing 20
      (.error "boom") [10, 20] rfl 0 (by decide)
  · exact with_exponential_backoff_spec.2.2.2 Nat String 10 3600 failTwiceThenSucceed 20 0
      [] (.ok 42) [10, 20] rfl

/-! ## Worker lifecycle lemmas -/

/-- A call to `terminate` never touches the `_terminated` event. -/
lemma terminate_preserves_terminated (s : WorkerState) (g : Bool) :
    (Worker.terminate s g).1.terminated = s.terminated := by
  by_cases h : s.terminated <;> simp [Worker.terminate, h]

/-- No public operation clears the stop flag. -/
lemma applyWorkerOp_preserves_stop (s : WorkerState) (op : WorkerOp)
    (h : s.stop = true) : (applyWorkerOp s op).stop = true := by
  cases op with
  | startOp cfg =>
    simp only [applyWorkerOp, Worker.start]
    split
    · exact h
    · split
      · exact h
      · exact h
  | terminateOp g =>
    simp only [applyWorkerOp, Worker.terminate]
    split
    · exact h
    · rfl
  | joinOp =>
    simp only [applyWorkerOp, Worker.join, Worker.terminate]
    split
    · exact h
    · rfl

/-- C7 counterexample: in the setup-incomplete and read-only no-op modes,
`start` returns (after a terminate call set the stop flag) without setting
the terminated flag, so `is_terminated()` is still false when `start()`
has returned. -/
theorem worker_start_noop_not_terminated_cex :
    (Worker.terminate initialWorkerState false).1 = ⟨true, false⟩
    ∧ Worker.is_terminated (Worker.start ⟨false, false⟩ ⟨true, false⟩) = false
    ∧ Worker.is_terminated (Worker.start ⟨true, true⟩ ⟨true, false⟩) = false := by
  decide

/-- C7 amended: on the normal startup path — setup complete and the
registry not read-only — `is_terminated()` returns true whenever
`Worker.start` returns. -/
theorem worker_start_normal_terminated_spec (cfg : WorkerConfig) (s : WorkerState)
    (h1 : cfg.setup_complete = true) (h2 : cfg.registry_readonly = false) :
    Worker.is_terminated (Worker.start cfg s) = true := by
  simp [Worker.start, Worker.is_terminated, h1, h2]

/-- Witness for the amended C7 theorem at the normal configuration. -/
theorem worker_start_normal_terminated_witness :
    Worker.is_terminated (Worker.start ⟨true, false⟩ initialWorkerState) = true :=
  worker_start_normal_terminated_spec ⟨true, false⟩ initialWorkerState rfl rfl

/-- C8 counterexample: two successive `terminate(graceful=False)` calls on
a freshly constructed (hence not terminated) worker invoke the
`ungracefully_terminated` hook twice, not at most once. -/
theorem worker_ungraceful_hook_twice_cex :
    (terminateCalls initialWorkerState 2).2 = 2 := by decide

/-- C8 amended: across a sequence of `n` calls to
`terminate(graceful=False)` on a worker that has not yet fully terminated,
the `ungracefully_terminated` hook is invoked exactly once per call —
`n` times in total, not at most once. -/
theorem worker_ungraceful_hook_per_call_spec (n : Nat) :
    ∀ s : WorkerState, s.terminated = false → (terminateCalls s n).2 = n := by
  induction n with
  | zero => intro s _; rfl
  | succ n ih =>
    intro s h
    have hstep : Worker.terminate s false
        = ({ s with stop := true }, .returned, true) := by
      simp [Worker.terminate, h]
    simp only [terminateCalls, hstep]
    rw [ih { s with stop := true } h]
    simp [Nat.add_comm]

/-- Witness for the amended C8 theorem: three ungraceful terminations of a
fresh worker invoke the hook three times. -/
theorem worker_ungraceful_hook_per_call_witness :
    (terminateCalls initialWorkerState 3).2 = 3 :=
  worker_ungraceful_hook_per_call_spec 3 initialWorkerState rfl

/-- C9: calling `terminate` (directly or through `join`) on a worker whose
termination has completed exits the process with code 1 instead of
returning; on a not-yet-terminated worker it sets the stop flag and
returns normally. -/
theorem worker_terminate_double_shutdown_spec (s : WorkerState) (g : Bool) :
    (s.terminated = true →
      Worker.terminate s g = (s, .exited 1, false)
      ∧ Worker.join s = (s, .exited 1, false))
    ∧ (s.terminated = false →
      Worker.terminate s g = ({ s with stop := true }, .returned, !g)) := by
  constructor
  · intro h
    constructor <;> simp [Worker.terminate, Worker.join, h]
  · intro h
    simp [Worker.terminate, h]

/-- Witness for C9 at a terminated and at a fresh worker state. -/
theorem worker_terminate_double_shutdown_witness :
    Worker.terminate ⟨false, true⟩ false = (⟨false, true⟩, .exited 1, false)
    ∧ Worker.terminate ⟨false, false⟩ false = (⟨true, false⟩, .returned, true) :=
  ⟨((worker_terminate_double_shutdown_spec ⟨false, true⟩ false).1 rfl).1,
   (worker_terminate_double_shutdown_spec ⟨false, false⟩ false).2 rfl⟩

/-- C10: health is monotone — a freshly constructed worker is healthy,
any `terminate` call on a live worker makes it unhealthy, and no sequence
of public operations ever makes an unhealthy worker healthy again, since
none of them clears the stop flag. -/
theorem worker_health_monotone_spec :
    Worker.is_healthy initialWorkerState = true
    ∧ (∀ (s : WorkerState) (g : Bool), s.terminated = false →
        Worker.is_healthy (Worker.terminate s g).1 = false)
    ∧ ∀ (ops : List WorkerOp) (s : WorkerState), Worker.is_healthy s = false →
        Worker.is_healthy (ops.foldl applyWorkerOp s) = false := by
  refine ⟨rfl, ?_, ?_⟩
  · intro s g h
    simp [Worker.terminate, Worker.is_healthy, h]
  · intro ops
    induction ops with
    | nil => intro s h; exact h
    | cons op ops ih =>
      intro s h
      have hstop : s.stop = true := by
        simpa [Worker.is_healthy] using h
      have := applyWorkerOp_preserves_stop s op hstop
      exact ih (applyWorkerOp s op) (by simpa [Worker.is_healthy] using this)

/-- Witness for C10: an unhealthy worker stays unhealthy through a further
join operation. -/
theorem worker_health_monotone_witness :
    Worker.is_healthy ([WorkerOp.joinOp].foldl applyWorkerOp ⟨true, false⟩) = false :=
  worker_health_monotone_spec.2.2 [WorkerOp.joinOp] ⟨true, false⟩ rfl

/-- C5: no store error ever propagates out of the public recorder entry
points — `track_tag_pull`, `track_manifest_pull` and their synchronous
variants always return normally for every input and every store outcome,
and when the store errors on the synchronous path the error is caught and
logged. -/
theorem recorder_never_raises_spec :
    (∀ (testing : Bool) (r : Nat) (t d : String)
        (store : String → Except String Unit),
        outcomeRaises (track_tag_pull testing r t d store) = false)
    ∧ (∀ (testing : Bool) (r : Nat) (d : String)
        (store : String → Except String Unit),
        outcomeRaises (track_manifest_pull testing r d store) = false)
    ∧ (∀ (r : Nat) (t d : String) (store : String → Except String Unit),
        outcomeRaises (track_tag_pull_sync r t d store) = false)
    ∧ (∀ (r : Nat) (d : String) (store : String → Except String Unit),
        outcomeRaises (track_manifest_pull_sync r d store) = false)
    ∧ (∀ (r : Nat) (t d e : String),
        track_tag_pull_sync r t d (fun _ => .error e) = .returns true)
    ∧ ∀ (r : Nat) (d e : String),
        track_manifest_pull_sync r d (fun _ => .error e) = .returns true := by
  refine ⟨?_, ?_, ?_, ?_, fun r t d e => rfl, fun r d e => rfl⟩
  · intro testing r t d store
    cases testing with
    | false => rfl
    | true =>
      simp only [track_tag_pull, if_pos rfl, track_tag_pull_sync]
      cases store (tag_pull_key r t d) <;> rfl
  · intro testing r d store
    cases testing with
    | false => rfl
    | true =>
      simp only [track_manifest_pull, if_pos rfl, track_manifest_pull_sync]
      cases store (manifest_pull_key r d) <;> rfl
  · intro r t d store
    simp only [track_tag_pull_sync]
    cases store (tag_pull_key r t d) <;> rfl
  · intro r d store
    simp only [track_manifest_pull_sync]
    cases store (manifest_pull_key r d) <;> rfl

/-- C1: on the four-key scan of `test_process_redis_events_with_invalid_keys`
— an empty hash, a valid tag-form record, a zero-pull-count record and an
invalid-digest record — `_process_redis_events` returns exactly 3
cleanable keys, 1 database-dependent key, 1 tag update and 1 manifest
update. -/
theorem process_redis_events_invalid_keys_spec :
    (process_redis_events exScanItems).cleanable_keys.length = 3
    ∧ (process_redis_events exScanItems).database_dependent_keys.length = 1
    ∧ (process_redis_events exScanItems).tag_updates.length = 1
    ∧ (process_redis_events exScanItems).manifest_updates.length = 1 := by
  exact ⟨by decide, by decide, by decide, by decide⟩

/-- C2 counterexample: the zero-pull-count record passes validation, yet
`_process_redis_events` classifies its key cleanable — not
database-dependent — and produces no tag or manifest update for it. -/
theorem process_valid_zero_count_cex :
    validate_redis_key_data exZeroCountHash = true
    ∧ (process_redis_events [("k", exZeroCountHash)]).database_dependent_keys = []
    ∧ (process_redis_events [("k", exZeroCountHash)]).tag_updates = []
    ∧ (process_redis_events [("k", exZeroCountHash)]).manifest_updates = []
    ∧ (process_redis_events [("k", exZeroCountHash)]).cleanable_keys = ["k"] := by
  exact ⟨by decide, by decide, by decide, by decide, by decide⟩

/-! ## Validation lemmas -/

/-- Head of a non-empty `dropWhile` result fails the predicate. -/
lemma dropWhile_head_false {p : Char → Bool} :
    ∀ (l : List Char) (c : Char) (rest : List Char),
      l.dropWhile p = c :: rest → p c = false := by
  intro l
  induction l with
  | nil => intro c rest h; simp [List.dropWhile] at h
  | cons a l ih =>
    intro c rest h
    by_cases hp : p a
    · rw [List.dropWhile_cons_of_pos hp] at h
      exact ih c rest h
    · rw [List.dropWhile_cons_of_neg hp] at h
      obtain ⟨h1, _⟩ := List.cons.inj h
      rw [← h1]
      exact Bool.of_not_eq_true hp

/-- Dropping the non-colon prefix of `alg ++ ':' :: rest` lands exactly on
the colon when `alg` is colon-free. -/
lemma dropWhile_ne_colon_append (alg rest : List Char) (halg : ∀ c ∈ alg, c ≠ ':') :
    (alg ++ ':' :: rest).dropWhile (fun c => c ≠ ':') = ':' :: rest := by
  induction alg with
  | nil =>
    simp only [List.nil_append]
    rw [List.dropWhile_cons_of_neg (by simp)]
  | cons a l ih =>
    have ha : a ≠ ':' := halg a (by simp)
    simp only [List.cons_append]
    rw [List.dropWhile_cons_of_pos (by simpa using ha)]
    exact ih fun c hc => halg c (by simp [hc])

/-- Taking the non-colon prefix of `alg ++ ':' :: rest` recovers `alg`
when `alg` is colon-free. -/
lemma takeWhile_ne_colon_append (alg rest : List Char) (halg : ∀ c ∈ alg, c ≠ ':') :
    (alg ++ ':' :: rest).takeWhile (fun c => c ≠ ':') = alg := by
  induction alg with
  | nil =>
    simp only [List.nil_append]
    rw [List.takeWhile_cons_of_neg (by simp)]
  | cons a l ih =>
    have ha : a ≠ ':' := halg a (by simp)
    simp only [List.cons_append]
    rw [List.takeWhile_cons_of_pos (by simpa using ha)]
    rw [ih fun c hc => halg c (by simp [hc])]

/-- Characterization of the content-digest shape check: it accepts exactly
the strings of the form `algorithm:hexdigits` with a non-empty, colon-free
algorithm part and a non-empty all-hex part. -/
lemma isValidDigest_iff (d : String) :
    isValidDigest d = true ↔
      ∃ alg hex, d.data = alg ++ ':' :: hex ∧ alg ≠ []
        ∧ (∀ c ∈ alg, c ≠ ':') ∧ hex ≠ []
        ∧ ∀ c ∈ hex, isHexChar c = true := by
  constructor
  · intro h
    cases hD : d.data.dropWhile (fun c => c ≠ ':') with
    | nil =>
      simp only [isValidDigest, hD] at h
      exact absurd h (by decide)
    | cons c hex =>
      simp only [isValidDigest, hD, Bool.and_eq_true, Bool.not_eq_true'] at h
      have hc : c = ':' := by
        have := dropWhile_head_false d.data c hex hD
        simpa using this
      rw [hc] at hD
      refine ⟨d.data.takeWhile (fun c => c ≠ ':'), hex, ?_, ?_, ?_, ?_, ?_⟩
      · rw [← hD]
        exact (List.takeWhile_append_dropWhile _ _).symm
      · intro hnil
        rw [hnil] at h
        simp at h
      · intro x hx
        simpa using List.mem_takeWhile_imp hx
      · intro hnil
        rw [hnil] at h
        simp at h
      · exact List.all_eq_true.mp h.2
  · rintro ⟨alg, hex, hdata, halg, hcf, hhex, hall⟩
    simp only [isValidDigest, hdata, dropWhile_ne_colon_append alg hex hcf,
      takeWhile_ne_colon_append alg hex hcf, Bool.and_eq_true, Bool.not_eq_true']
    refine ⟨⟨by simpa using halg, by simpa using hhex⟩, List.all_eq_true.mpr hall⟩

/-- Field extraction from a hash that passes validation. -/
lemma validate_fields {h : RedisHash} (hv : validate_redis_key_data h = true) :
    (∃ rid, h.repository_id.bind parseDecimal = some rid ∧ 0 < rid)
    ∧ (∃ md, h.manifest_digest = some md ∧ isValidDigest md = true)
    ∧ (∃ pc, h.pull_count.bind parseDecimal = some pc)
    ∧ ∃ ts, h.last_pull_timestamp = some ts := by
  simp only [validate_redis_key_data, Bool.and_eq_true] at hv
  obtain ⟨⟨⟨h1, h2⟩, h3⟩, h4⟩ := hv
  refine ⟨?_, ?_, ?_, ?_⟩
  · cases hr : h.repository_id.bind parseDecimal with
    | none => simp only [hr] at h1; exact absurd h1 (by decide)
    | some rid => simp only [hr] at h1; exact ⟨rid, rfl, of_decide_eq_true h1⟩
  · cases hm : h.manifest_digest with
    | none => simp only [hm] at h2; exact absurd h2 (by decide)
    | some md => simp only [hm] at h2; exact ⟨md, rfl, h2⟩
  · cases hp : h.pull_count.bind parseDecimal with
    | none => rw [hp] at h3; exact absurd h3 (by decide)
    | some pc => exact ⟨pc, rfl⟩
  · cases ht : h.last_pull_timestamp with
    | none => rw [ht] at h4; exact absurd h4 (by decide)
    | some t => exact ⟨t, rfl⟩

/-- A hash that passes validation is not empty. -/
lemma validate_not_empty {h : RedisHash} (hv : validate_redis_key_data h = true) :
    h.isEmptyHash = false := by
  obtain ⟨⟨rid, hrid, _⟩, _, _, _⟩ := validate_fields hv
  cases hr : h.repository_id with
  | none => rw [hr] at hrid; simp at hrid
  | some s => simp [RedisHash.isEmptyHash, hr]

/-- C3: `_validate_redis_key_data` returns true exactly when
`repository_id` is present and a positive integer, `manifest_digest` is
present and of content-digest shape with non-empty algorithm and hex
parts, `pull_count` is present and a non-negative integer, and
`last_pull_timestamp` is present; in particular it accepts the valid test
record and rejects a missing `manifest_digest`, a `repository_id` of
`"0"`, and a `manifest_digest` of `"invalid_digest"`. -/
theorem validate_redis_key_data_spec :
    (∀ h : RedisHash, validate_redis_key_data h = true ↔ ValidRecordSpec h)
    ∧ validate_redis_key_data exValidData = true
    ∧ validate_redis_key_data exMissingDigestData = false
    ∧ validate_redis_key_data exZeroRepoData = false
    ∧ validate_redis_key_data exInvalidDigestData = false := by
  refine ⟨?_, by decide, by decide, by decide, by decide⟩
  intro h
  constructor
  · intro hv
    obtain ⟨⟨rid, hrid, hpos⟩, ⟨md, hmd, hval⟩, ⟨pc, hpc⟩, ⟨ts, hts⟩⟩ := validate_fields hv
    refine ⟨?_, ?_, ?_, ⟨ts, hts⟩⟩
    · cases hr : h.repository_id with
      | none => rw [hr] at hrid; simp at hrid
      | some s =>
        rw [hr] at hrid
        exact ⟨s, rid, rfl, by simpa using hrid, hpos⟩
    · obtain ⟨alg, hex, hd, h1, h2, h3, h4⟩ := (isValidDigest_iff md).mp hval
      exact ⟨md, alg, hex, hmd, hd, h1, h2, h3, h4⟩
    · cases hp : h.pull_count with
      | none => rw [hp] at hpc; simp at hpc
      | some s =>
        rw [hp] at hpc
        exact ⟨s, pc, rfl, by simpa using hpc⟩
  · rintro ⟨⟨s, n, hs, hn, hpos⟩, ⟨d, alg, hex, hd, hdd, h1, h2, h3, h4⟩,
      ⟨s2, n2, hs2, hn2⟩, ⟨t, ht⟩⟩
    have hdv : isValidDigest d = true :=
      (isValidDigest_iff d).mpr ⟨alg, hex, hdd, h1, h2, h3, h4⟩
    simp only [validate_redis_key_data, hs, hd, hs2, ht, Option.some_bind, hn, hn2, hdv]
    simp [hpos]

/-- C2 counterexample means the claim needs a non-zero pull count; this is
the amended per-key classification law: a scanned key whose record passes
validation and has non-zero pull count is classified database-dependent,
is not cleanable, and contributes exactly one tag update plus one manifest
update when `tag_name` is non-empty, or exactly one manifest update and no
tag update when `tag_name` is empty, every produced update carrying the
parsed integer `repository_id`. -/
theorem processOne_valid_nonzero_spec (key : String) (h : RedisHash)
    (acc : ProcessResult) (pc : Nat)
    (hv : validate_redis_key_data h = true)
    (hpc : h.pull_count.bind parseDecimal = some pc) (hnz : pc ≠ 0) :
    (∀ items, process_redis_events items
        = items.foldl (fun a kh => processOne kh.1 kh.2 a) emptyProcessResult)
    ∧ (processOne key h acc).database_dependent_keys
        = acc.database_dependent_keys ++ [key]
    ∧ (processOne key h acc).cleanable_keys = acc.cleanable_keys
    ∧ (h.tag_name.getD "" ≠ "" →
        ∃ (tu : TagUpdate) (mu : ManifestUpdate),
          (processOne key h acc).tag_updates = acc.tag_updates ++ [tu]
          ∧ (processOne key h acc).manifest_updates = acc.manifest_updates ++ [mu]
          ∧ h.repository_id.bind parseDecimal = some tu.repository_id
          ∧ h.repository_id.bind parseDecimal = some mu.repository_id
          ∧ tu.tag_name = h.tag_name.getD "" ∧ tu.pull_count = pc ∧ mu.pull_count = pc)
    ∧ (h.tag_name.getD "" = "" →
        (processOne key h acc).tag_updates = acc.tag_updates
        ∧ ∃ mu : ManifestUpdate,
            (processOne key h acc).manifest_updates = acc.manifest_updates ++ [mu]
            ∧ h.repository_id.bind parseDecimal = some mu.repository_id
            ∧ mu.pull_count = pc) := by
  obtain ⟨⟨rid, hrid, hpos⟩, ⟨md, hmd, hval⟩, ⟨pc', hpc'⟩, ⟨ts, hts⟩⟩ := validate_fields hv
  have hne := validate_not_empty hv
  have hstep : processOne key h acc =
      if h.tag_name.getD "" ≠ "" then
        { acc with
          tag_updates := acc.tag_updates ++ [⟨rid, h.tag_name.getD "", md, pc, ts⟩],
          manifest_updates := acc.manifest_updates ++ [⟨rid, md, pc, ts⟩],
          database_dependent_keys := acc.database_dependent_keys ++ [key] }
      else
        { acc with
          manifest_updates := acc.manifest_updates ++ [⟨rid, md, pc, ts⟩],
          database_dependent_keys := acc.database_dependent_keys ++ [key] } := by
    simp only [processOne, hne, hv, hrid, hmd, hpc, hts]
    simp [hnz]
  by_cases htag : h.tag_name.getD "" = ""
  · rw [hstep, if_neg (by simpa using htag)]
    refine ⟨fun items => rfl, rfl, rfl, fun hcon => absurd htag hcon, fun _ => ?_⟩
    exact ⟨rfl, ⟨rid, md, pc, ts⟩, rfl, hrid, rfl⟩
  · rw [hstep, if_pos htag]
    refine ⟨fun items => rfl, rfl, rfl, fun _ => ?_, fun hcon => absurd hcon htag⟩
    exact ⟨⟨rid, h.tag_name.getD "", md, pc, ts⟩, ⟨rid, md, pc, ts⟩,
      rfl, rfl, hrid, hrid, rfl, rfl, rfl⟩

/-- Witness for the amended C2 theorem at the valid tag-form test record. -/
theorem processOne_valid_nonzero_witness :
    (processOne "k1" exValidTagHash emptyProcessResult).database_dependent_keys
      = emptyProcessResult.database_dependent_keys ++ ["k1"] :=
  (processOne_valid_nonzero_spec "k1" exValidTagHash emptyProcessResult 5
    (by decide) (by decide) (by decide)).2.1

/-! ## Key-format lemmas -/

/-- Characters `'0'` through `'9'` are digits. -/
lemma ofNat_add_isDigit : ∀ m : Nat, m < 10 → (Char.ofNat (48 + m)).isDigit = true := by
  decide

/-- Every character produced by the decimal rendering core is a digit. -/
lemma natToDigitsAux_isDigit :
    ∀ fuel n : Nat, ∀ c ∈ natToDigitsAux fuel n, c.isDigit = true := by
  intro fuel
  induction fuel with
  | zero => intro n c hc; simp [natToDigitsAux] at hc
  | succ fuel ih =>
    intro n c hc
    rw [natToDigitsAux] at hc
    by_cases hn : n < 10
    · rw [if_pos hn] at hc
      have hc' : c = Char.ofNat (48 + n) := by simpa using hc
      rw [hc']
      exact ofNat_add_isDigit n hn
    · rw [if_neg hn] at hc
      rcases List.mem_append.mp hc with h1 | h2
      · exact ih (n / 10) c h1
      · have hc' : c = Char.ofNat (48 + n % 10) := by simpa using h2
        rw [hc']
        exact ofNat_add_isDigit (n % 10) (Nat.mod_lt n (by norm_num))

/-- Every character of the decimal rendering of an integer is a digit. -/
lemma natToDigits_isDigit (n : Nat) : ∀ c ∈ natToDigits n, c.isDigit = true :=
  natToDigitsAux_isDigit (n + 1) n

/-- The character list of the decimal string. -/
lemma natToString_data (n : Nat) : (natToString n).data = natToDigits n := rfl

/-- Two lists that agree and both start with an all-digit prefix followed
by a colon agree on the character right after the colon. -/
lemma digits_prefix_colon_eq :
    ∀ R R' : List Char, (∀ c ∈ R, c.isDigit = true) → (∀ c ∈ R', c.isDigit = true) →
      ∀ (a b : Char) (xs ys : List Char),
        R ++ ':' :: a :: xs = R' ++ ':' :: b :: ys → a = b := by
  intro R
  induction R with
  | nil =>
    intro R' _ hR' a b xs ys h
    cases R' with
    | nil =>
      simp only [List.nil_append] at h
      exact (List.cons.inj (List.cons.inj h).2).1
    | cons c R'' =>
      simp only [List.nil_append, List.cons_append] at h
      have hc : c = ':' := ((List.cons.inj h).1).symm
      have hdig := hR' c (by simp)
      rw [hc] at hdig
      exact absurd hdig (by decide)
  | cons c R'' ih =>
    intro R' hR hR' a b xs ys h
    cases R' with
    | nil =>
      simp only [List.cons_append, List.nil_append] at h
      have hc : c = ':' := (List.cons.inj h).1
      have hdig := hR c (by simp)
      rw [hc] at hdig
      exact absurd hdig (by decide)
    | cons c' R''' =>
      simp only [List.cons_append] at h
      exact ih R''' (fun x hx => hR x (by simp [hx]))
        (fun x hx => hR' x (by simp [hx])) a b xs ys (List.cons.inj h).2

/-- Characters of the middle marker of a tag key. -/
lemma data_tag_mid : (":tag:" : String).data = [':', 't', 'a', 'g', ':'] := rfl

/-- Characters of the middle marker of a digest key. -/
lemma data_digest_mid :
    (":digest:" : String).data = [':', 'd', 'i', 'g', 'e', 's', 't', ':'] := rfl

/-- Characters of the single-colon separator. -/
lemma data_colon : (":" : String).data = [':'] := rfl

/-- No tag-form key ever coincides with a digest-form key: right after the
all-digit repository id, a tag key reads `:tag:` while a digest key reads
`:digest:`. -/
lemma tag_key_ne_manifest_key (r r' : Nat) (t d d' : String) :
    tag_pull_key r t d ≠ manifest_pull_key r' d' := by
  intro heq
  have hd : (tag_pull_key r t d).data = (manifest_pull_key r' d').data :=
    congrArg String.data heq
  simp only [tag_pull_key, manifest_pull_key, String.data_append, natToString_data,
    data_tag_mid, data_digest_mid, data_colon, List.append_assoc, List.cons_append,
    List.nil_append] at hd
  simp only [List.cons.injEq, eq_self_iff_true, true_and] at hd
  have hchar : 't' = 'd' :=
    digits_prefix_colon_eq (natToDigits r) (natToDigits r')
      (natToDigits_isDigit r) (natToDigits_isDigit r') 't' 'd' _ _ hd
  exact absurd hchar (by decide)

/-- C6: the generated tag key is exactly
`pull_events:repo:{r}:tag:{t}:{d}` and the digest key exactly
`pull_events:repo:{r}:digest:{d}` — checked literally on the test vectors
and structurally for all arguments — both are pure functions of their
arguments, and no tag-form key ever equals a digest-form key. -/
theorem pull_key_format_and_disjoint_spec :
    tag_pull_key 123 "latest" "sha256:abc123"
      = "pull_events:repo:123:tag:latest:sha256:abc123"
    ∧ manifest_pull_key 456 "sha256:def456"
      = "pull_events:repo:456:digest:sha256:def456"
    ∧ tag_pull_key 789 "v1.2.3-alpha" "sha256:xyz789"
      = "pull_events:repo:789:tag:v1.2.3-alpha:sha256:xyz789"
    ∧ (∀ (r : Nat) (t d : String),
        tag_pull_key r t d
          = "pull_events:repo:" ++ natToString r ++ ":tag:" ++ t ++ ":" ++ d)
    ∧ (∀ (r : Nat) (d : String),
        manifest_pull_key r d
          = "pull_events:repo:" ++ natToString r ++ ":digest:" ++ d)
    ∧ ∀ (r r' : Nat) (t d d' : String),
        tag_pull_key r t d ≠ manifest_pull_key r' d' := by
  exact ⟨by decide, by decide, by decide, fun r t d => rfl, fun r d => rfl,
    tag_key_ne_manifest_key⟩

/-- Witness for C6: the cross-form disjointness applied at a concrete
repository, tag and digest. -/
theorem pull_key_format_and_disjoint_witness :
    tag_pull_key 1 "t" "sha256:ab" ≠ manifest_pull_key 1 "sha256:ab" :=
  pull_key_format_and_disjoint_spec.2.2.2.2.2 1 1 "t" "sha256:ab" "sha256:ab"

end Quay
